import Mathlib

/-!
Verification development for the go-asana client library.

The library funnels every operation through one request pipeline
(`(*Client).request` in asana.go) and one pagination driver
(`(*Client).pagenate`).  We embed those routines shallowly:

* Go pointers to `Filter` values are modelled by an explicit store
  (`Store`, a list of `Filter` cells) with pointers as indices, so that
  the source's copy-on-write discipline (`newOpt := *opt; opt = &newOpt`)
  and the possibility of a nil-pointer dereference are both visible.
* The HTTP round trip is a caller-supplied function (`Doer` in the
  source) from the fully built outgoing request to an abstract response.
  The JSON decoding step of the source is modelled by letting the
  response carry the already-decoded envelope fields together with an
  optional decode error, mirroring the fact that `json.Decode` populates
  `res` as far as it can even when it reports an error.
* Machine integers (`int64`, `uint32`, `int`) are modelled as `Int`/`Nat`;
  none of the verified code paths can overflow them.
-/

namespace Asana

/-- `libraryVersion` constant from asana.go. -/
def libraryVersion : String := "0.1"

/-- `userAgent` constant from asana.go (`"go-asana/" + libraryVersion`). -/
def userAgent : String := "go-asana/" ++ libraryVersion

/-- The `Filter` struct from asana.go.  Field defaults are the Go zero
values, so `{}` is the Go zero `Filter{}`. -/
structure Filter where
  archived : Bool := false
  assignee : Int := 0
  project : Int := 0
  workspace : Int := 0
  completedSince : String := ""
  modifiedSince : String := ""
  optFields : List String := []
  optExpand : List String := []
  offset : String := ""
  limit : Nat := 0
deriving DecidableEq

/-- The `defaultOptFields` map from asana.go.  A Go map lookup on a
missing key yields a nil slice, modelled by `[]`.  Note the map is keyed
by the whole `path` string passed to `request`. -/
def defaultOptFields (path : String) : List String :=
  if path = "tags" then ["name", "color", "notes"]
  else if path = "users" then ["name", "email", "photo"]
  else if path = "projects" then ["name", "color", "archived"]
  else if path = "workspaces" then ["name", "is_organization"]
  else if path = "tasks" then ["name", "assignee", "assignee_status", "completed", "parent"]
  else []

/-- The `NextPage` struct from asana.go. -/
structure NextPage where
  offset : String := ""
  path : String := ""
  uri : String := ""
deriving DecidableEq

/-- The `Error` record (`{phrase, message}`) from asana.go. -/
structure Error where
  phrase : String := ""
  message : String := ""
deriving DecidableEq

/-- The aggregate `Errors` value from asana.go: the full list of error
records plus the HTTP status code. -/
structure Errors where
  errors : List Error
  code : Nat
deriving DecidableEq

/-- The decoded state of a response body, as left behind by
`json.NewDecoder(resp.Body).Decode(res)` in `request`:
the elements written into the destination slice (`dataElems`), the
envelope's error records and `next_page` cursor, and the decode error
reported by the JSON decoder (if any).  Even a failing decode leaves the
fields it managed to parse populated, which this model keeps abstract. -/
structure RespBody (ε : Type) where
  decodeErr : Option String := none
  dataElems : List ε := []
  errors : List Error := []
  nextPage : Option NextPage := none
deriving DecidableEq

/-- Result of one `doer.Do` HTTP exchange: either a transport-level
failure or a response with an HTTP status code and a body. -/
inductive HttpResult (ε : Type) where
  | transportErr (msg : String)
  | ok (status : Nat) (body : RespBody ε)
deriving DecidableEq

/-- The error values `request` can return: transport failure,
`ErrUnauthorized`, the aggregate application `Errors`, or a JSON decode
error. -/
inductive ReqError where
  | transport (msg : String)
  | unauthorized
  | appErrors (e : Errors)
  | decode (msg : String)
deriving DecidableEq

/-- The package-level `ErrUnauthorized` value from asana.go. -/
def ErrUnauthorized : ReqError := ReqError.unauthorized

/-- The `request` struct from asana.go: the `{"data": <payload>}`
envelope in which a structured payload is wrapped before serialization. -/
structure request (δ : Type) where
  data : δ
deriving DecidableEq

/-- The body of an outgoing request: either the JSON serialization of
the `{"data": ...}` envelope or URL-form-encoded values. -/
inductive ReqBody (δ : Type) where
  | jsonEnvelope (env : request δ)
  | formEncoded (values : List (String × String))
deriving DecidableEq

/-- A fully built outbound request, as handed to the doer: method, path,
encoded query parameters, optional body with its content type, and the
`User-Agent` header. -/
structure OutgoingRequest (δ : Type) where
  method : String
  path : String
  query : List (String × String)
  body : Option (ReqBody δ)
  contentType : Option String
  userAgent : String
deriving DecidableEq

/-- One query-string parameter, included only when its `omitempty`
condition holds (go-querystring semantics). -/
def qparam (cond : Bool) (k v : String) : List (String × String) :=
  if cond then [(k, v)] else []

/-- Query-string encoding of a `Filter` (go-querystring `url` tags with
`omitempty`, keys emitted in the sorted order `url.Values.Encode` uses,
list-valued options comma-joined). -/
def encodeQuery (f : Filter) : List (String × String) :=
  qparam f.archived "archived" "true" ++
  qparam (decide (f.assignee ≠ 0)) "assignee" (toString f.assignee) ++
  qparam (decide (f.completedSince ≠ "")) "completed_since" f.completedSince ++
  qparam (decide (f.limit ≠ 0)) "limit" (toString f.limit) ++
  qparam (decide (f.modifiedSince ≠ "")) "modified_since" f.modifiedSince ++
  qparam (decide (f.offset ≠ "")) "offset" f.offset ++
  qparam (decide (f.optExpand ≠ [])) "opt_expand" (String.intercalate "," f.optExpand) ++
  qparam (decide (f.optFields ≠ [])) "opt_fields" (String.intercalate "," f.optFields) ++
  qparam (decide (f.project ≠ 0)) "project" (toString f.project) ++
  qparam (decide (f.workspace ≠ 0)) "workspace" (toString f.workspace)

/-- Value of the query parameter `k`, if present. -/
def queryGet (q : List (String × String)) (k : String) : Option String :=
  (q.find? (fun kv => kv.1 == k)).map (fun kv => kv.2)

/-- The `offset` carried by an outgoing request's query string
(`""` when the parameter is absent, matching an empty Go offset). -/
def offsetParam {δ : Type} (r : OutgoingRequest δ) : String :=
  (queryGet r.query "offset").getD ""

/-! ### The Filter store: Go pointers to `Filter` values -/

/-- A heap of `Filter` cells; a Go `*Filter` is an index into it
(`Option Ptr`, with `none` for nil). -/
abbrev Store := List Filter

/-- A non-nil pointer into the store. -/
abbrev Ptr := Nat

/-- Dereference a pointer (`*opt`). -/
def read (s : Store) (p : Ptr) : Filter := s.getD p {}

/-- Allocate a fresh cell holding `f` (`newOpt := f; &newOpt`). -/
def alloc (s : Store) (f : Filter) : Store × Ptr := (s ++ [f], s.length)

/-- Assign through a pointer (`*p = f`). -/
def writeFilter (s : Store) (p : Ptr) (f : Filter) : Store := s.set p f

/-- `opt.OptFields = v` through pointer `p`. -/
def writeOptFields (s : Store) (p : Ptr) (v : List String) : Store :=
  writeFilter s p { read s p with optFields := v }

/-- `opt.Offset = v` through pointer `p`. -/
def writeOffset (s : Store) (p : Ptr) (v : String) : Store :=
  writeFilter s p { read s p with offset := v }

/-- `s'` extends `s`: every already-allocated cell is untouched. -/
def StoreGrows (s s' : Store) : Prop := ∃ t, s' = s ++ t

/-- The opt-fields defaulting step of `request` (asana.go lines
1075-1080), operating through the store: if the pointed-to Filter has an
empty `OptFields`, copy it into a fresh cell (`newOpt := *opt;
opt = &newOpt`) and set the copy's `OptFields` to the path's default
list.  Returns the store and the pointer `request` continues with. -/
def requestFilterCore (s : Store) (p : Ptr) (path : String) : Store × Ptr :=
  if (read s p).optFields.length = 0 then
    let sq := alloc s (read s p)
    (writeOptFields sq.1 sq.2 (defaultOptFields path), sq.2)
  else (s, p)

/-- The filter prologue of `request` (asana.go lines 1072-1080): a nil
filter is replaced by a fresh zero `Filter{}`, then opt-fields
defaulting is applied. -/
def requestFilter (s : Store) (opt : Option Ptr) (path : String) : Store × Ptr :=
  match opt with
  | none =>
    let sq := alloc s {}
    requestFilterCore sq.1 sq.2 path
  | some p => requestFilterCore s p path

/-- Pure description of what the prologue leaves in the effective
filter cell. -/
def applyDefaults (path : String) (f : Filter) : Filter :=
  if f.optFields.length = 0 then { f with optFields := defaultOptFields path } else f

/-- Assemble the outbound request (asana.go lines 1081-1112): encode the
effective filter into the query string; if a structured payload is
present, the body is the JSON envelope `{"data": ...}` with content type
`application/json` (form data is ignored); otherwise, present form data
is URL-encoded with content type `application/x-www-form-urlencoded`;
otherwise there is no body and no content type.  The `User-Agent` header
is always set. -/
def buildRequest (δ : Type) (method path : String) (data : Option δ)
    (form : Option (List (String × String))) (eff : Filter) (ua : String) :
    OutgoingRequest δ :=
  { method := method
    path := path
    query := encodeQuery eff
    body :=
      match data with
      | some d => some (ReqBody.jsonEnvelope ⟨d⟩)
      | none => form.map ReqBody.formEncoded
    contentType :=
      match data with
      | some _ => some "application/json"
      | none => form.map (fun _ => "application/x-www-form-urlencoded")
    userAgent := ua }

/-- Response classification of `request` (asana.go lines 1113-1128):
a transport error is propagated; a 401 status short-circuits to
`ErrUnauthorized` before the body is decoded; otherwise the body is
decoded and a non-empty error-record list yields the aggregate `Errors`
(discarding any decode error); otherwise the decode error (if any) is
returned together with the envelope's `next_page` cursor.  The third
component is what the decode step left in the caller's destination
slice. -/
def classifyResponse {ε : Type} (r : HttpResult ε) :
    Option NextPage × Option ReqError × List ε :=
  match r with
  | .transportErr msg => (none, some (ReqError.transport msg), [])
  | .ok status body =>
    if status = 401 then (none, some ReqError.unauthorized, [])
    else if body.errors.length > 0 then
      (none, some (ReqError.appErrors ⟨body.errors, status⟩), body.dataElems)
    else (body.nextPage, body.decodeErr.map ReqError.decode, body.dataElems)

/-- Everything `(*Client).request` produces, plus the request it sent
(observable through the doer in the source). -/
structure ReqResult (δ ε : Type) where
  store : Store
  sentReq : OutgoingRequest δ
  next : Option NextPage
  err : Option ReqError
  page : List ε
deriving DecidableEq

/-- Shallow embedding of `(*Client).request` (asana.go lines 1071-1129)
against a doer and a Filter store. -/
def requestGo {δ ε : Type} (doer : OutgoingRequest δ → HttpResult ε) (s : Store)
    (method path : String) (data : Option δ) (form : Option (List (String × String)))
    (opt : Option Ptr) : ReqResult δ ε :=
  let sp := requestFilter s opt path
  let req := buildRequest δ method path data form (read sp.1 sp.2) userAgent
  let out := classifyResponse (doer req)
  { store := sp.1, sentReq := req, next := out.1, err := out.2.1, page := out.2.2 }

/-- Initial store for a call that receives `opt : *Filter` from the
caller: the caller's Filter object lives at cell 0 (or the pointer is
nil). -/
def initState (opt : Option Filter) : Store × Option Ptr :=
  match opt with
  | none => ([], none)
  | some f => ([f], some 0)

/-- One public single-request call (`Request`/get/update/delete paths):
`request` run on a fresh store holding the caller's Filter. -/
def requestOnce {δ ε : Type} (doer : OutgoingRequest δ → HttpResult ε)
    (method path : String) (data : Option δ) (form : Option (List (String × String)))
    (opt : Option Filter) : ReqResult δ ε :=
  requestGo doer (initState opt).1 method path data form (initState opt).2

/-- How a run of the pagination loop ended. -/
inductive PagOutcome where
  | done
  | failed (e : ReqError)
  | panicked
  | fuelOut
deriving DecidableEq

/-- State delivered by the pagination loop: final store, accumulated
elements (the contents of the caller's destination slice `v`), the
requests issued in order, and how the loop ended. -/
structure PagResult (ε : Type) where
  store : Store
  acc : List ε
  reqs : List (OutgoingRequest Unit)
  outcome : PagOutcome
deriving DecidableEq

/-- Shallow embedding of the loop of `(*Client).pagenate` (asana.go
lines 988-1008).  Each iteration issues a GET `request` for the current
filter pointer; an error aborts with the accumulation as it stood; on
success the page's elements are appended; absence of a `next_page`
cursor terminates; otherwise the filter is copied (`newOpt := *opt`) and
the copy's offset overwritten with the cursor's offset — dereferencing a
nil filter pointer at that point is a Go runtime panic, modelled by
`PagOutcome.panicked`.  `fuel` bounds the number of iterations (the
source loops as long as the server keeps returning cursors). -/
def pagenateLoop {ε : Type} (doer : OutgoingRequest Unit → HttpResult ε) (path : String) :
    Nat → Store → Option Ptr → List ε → List (OutgoingRequest Unit) → PagResult ε
  | 0, s, _, acc, reqs => ⟨s, acc, reqs, PagOutcome.fuelOut⟩
  | fuel + 1, s, opt, acc, reqs =>
    let r := requestGo doer s "GET" path none none opt
    let reqs' := reqs ++ [r.sentReq]
    match r.err with
    | some e => ⟨r.store, acc, reqs', PagOutcome.failed e⟩
    | none =>
      let acc' := acc ++ r.page
      match r.next with
      | none => ⟨r.store, acc', reqs', PagOutcome.done⟩
      | some next =>
        match opt with
        | none => ⟨r.store, acc', reqs', PagOutcome.panicked⟩
        | some p =>
          let sq := alloc r.store (read r.store p)
          pagenateLoop doer path fuel (writeOffset sq.1 sq.2 next.offset) (some sq.2) acc' reqs'

/-- `(*Client).pagenate` started from the caller's Filter argument. -/
def pagenateGo {ε : Type} (doer : OutgoingRequest Unit → HttpResult ε) (path : String)
    (opt : Option Filter) (fuel : Nat) : PagResult ε :=
  pagenateLoop doer path fuel (initState opt).1 (initState opt).2 [] []

/-- Outcome of a public Go call: a value, an error (with no partial
value), a runtime panic, or divergence (the model's fuel ran out while
the source would still be looping). -/
inductive GoResult (β : Type) where
  | ok (val : β)
  | err (e : ReqError)
  | panicked
  | diverged
deriving DecidableEq

/-- A public list operation in the style of `ListTasks` (task.go lines
11-17): run `pagenate` into a fresh empty slice; on error return
`nil, err`, discarding the partially filled slice; on success return the
accumulated slice. -/
def listOp {ε : Type} (doer : OutgoingRequest Unit → HttpResult ε) (path : String)
    (opt : Option Filter) (fuel : Nat) : GoResult (List ε) :=
  let r := pagenateGo doer path opt fuel
  match r.outcome with
  | PagOutcome.done => GoResult.ok r.acc
  | PagOutcome.failed e => GoResult.err e
  | PagOutcome.panicked => GoResult.panicked
  | PagOutcome.fuelOut => GoResult.diverged

/-- `ListTasks` (task.go lines 11-17). -/
def ListTasks {ε : Type} (doer : OutgoingRequest Unit → HttpResult ε)
    (opt : Option Filter) (fuel : Nat) : GoResult (List ε) :=
  listOp doer "tasks" opt fuel

/-- `GetWebhooks` (webhook.go lines 13-31); its inline loop is
statement-for-statement the body of `pagenate`. -/
def GetWebhooks {ε : Type} (doer : OutgoingRequest Unit → HttpResult ε)
    (opt : Option Filter) (fuel : Nat) : GoResult (List ε) :=
  listOp doer "webhooks" opt fuel

/-- The request `pagenate` sends when the pagenate-level filter cell
holds `f`: a GET with no payload and no form, after opt-fields
defaulting. -/
def expectedReqOf (path : String) (f : Filter) : OutgoingRequest Unit :=
  buildRequest Unit "GET" path none none (applyDefaults path f) userAgent

/-- The request `pagenate` sends on the iteration whose filter is the
caller's `f` with its offset overwritten by `o`. -/
def expectedReq (path : String) (f : Filter) (o : String) : OutgoingRequest Unit :=
  expectedReqOf path { f with offset := o }

/-- A concrete server for the C1 witness: page `[10, 20]` with cursor
`off1` at the initial (empty) offset, page `[30]` with no cursor at
offset `off1`. -/
def doerC1 : OutgoingRequest Unit → HttpResult Nat := fun req =>
  if offsetParam req = "off1" then
    HttpResult.ok 200 { dataElems := [30], nextPage := none }
  else
    HttpResult.ok 200 { dataElems := [10, 20], nextPage := some { offset := "off1" } }

/-- A concrete failing server for the C2 witness: page `[10, 20]` with
cursor `off1` at the initial offset, then an application-error response
(HTTP 500 with one error record) at offset `off1`. -/
def doerC2 : OutgoingRequest Unit → HttpResult Nat := fun req =>
  if offsetParam req = "off1" then
    HttpResult.ok 500 { dataElems := [], errors := [{ phrase := "ph", message := "msg" }], nextPage := none }
  else
    HttpResult.ok 200 { dataElems := [10, 20], nextPage := some { offset := "off1" } }

/-- A server that always answers 401 with a well-formed, error-free
envelope (for the C3 witness). -/
def doerC3 : OutgoingRequest Unit → HttpResult Nat := fun _ =>
  HttpResult.ok 401 {}

/-- A server that always answers 200 with a successfully decoded
envelope carrying one error record (for the C4 witness). -/
def doerC4 : OutgoingRequest Unit → HttpResult Nat := fun _ =>
  HttpResult.ok 200 { dataElems := [], errors := [{ phrase := "p", message := "m" }] }

/-- A server that always answers 200 with both a decode error and an
error record (for the C9 witness). -/
def doerC9 : OutgoingRequest Unit → HttpResult Nat := fun _ =>
  HttpResult.ok 200 { decodeErr := some "unexpected EOF", errors := [{ phrase := "p", message := "m" }] }

/-- A server that always answers 200 with an empty envelope. -/
def doerOk200 : OutgoingRequest Unit → HttpResult Nat := fun _ =>
  HttpResult.ok 200 {}

/-- A two-page server (for C8): the request with an empty offset gets
page `[1, 2]` and a continuation cursor `off1`; any other offset gets
page `[3]` and no cursor. -/
def doerC8 : OutgoingRequest Unit → HttpResult Nat := fun req =>
  if offsetParam req = "" then
    HttpResult.ok 200 { dataElems := [1, 2], nextPage := some { offset := "off1" } }
  else
    HttpResult.ok 200 { dataElems := [3], nextPage := none }

/-! ### The Task data model and `GetCustomFieldValue` -/

/-- Arbitrary JSON-like data, standing for Go's `interface{}`. -/
inductive JsonVal where
  | null
  | boolean (b : Bool)
  | num (n : Int)
  | str (s : String)
  | arr (xs : List JsonVal)
  | obj (fields : List (String × JsonVal))

/-- Coarse model of Go's `time.Time` (wall-clock instant). -/
structure GoTime where
  seconds : Int := 0
  nanos : Int := 0
deriving DecidableEq

/-- The `Workspace` struct. -/
structure Workspace where
  id : Int := 0
  name : String := ""
  organization : Bool := false
deriving DecidableEq

/-- The `User` struct (`photo` is a string-to-string map, modelled as an
association list). -/
structure User where
  id : Int := 0
  email : String := ""
  name : String := ""
  photo : List (String × String) := []
  workspaces : List Workspace := []
deriving DecidableEq

/-- The `Project` struct. -/
structure Project where
  id : Int := 0
  name : String := ""
  archived : Bool := false
  color : String := ""
  notes : String := ""
deriving DecidableEq

/-- The `Heart` struct. -/
structure Heart where
  id : Int := 0
  user : User := {}
deriving DecidableEq

/-- The `Tag` struct. -/
structure Tag where
  id : Int := 0
  name : String := ""
  color : String := ""
  notes : String := ""
deriving DecidableEq

/-- The `External` struct. -/
structure External where
  id : String := ""
  data : JsonVal := JsonVal.null

/-- The `CFEnumOptions` struct. -/
structure CFEnumOptions where
  id : Int := 0
  name : String := ""
  color : String := ""
  enabled : Bool := false
deriving DecidableEq

/-- The `CustomField` struct. -/
structure CustomField where
  id : Int := 0
  name : String := ""
  description : String := ""
  type : String := ""
  enumOptions : List CFEnumOptions := []
  precision : Int := 0
  textValue : String := ""
  numberValue : Int := 0
  enumValue : CFEnumOptions := {}
deriving DecidableEq

/-- The `Section` struct. -/
structure Section where
  id : Int := 0
  createdAt : GoTime := {}
  name : String := ""
  project : Project := {}
  tags : List Tag := []
  external : External := {}

/-- The `Membership` struct (named `TaskMembership` here because Lean's
library already owns the name `Membership`). -/
structure TaskMembership where
  project : Project := {}
  sect : Section := {}

/-- The `Task` struct.  It is recursive through the `parent` pointer, so
it is an inductive with one constructor; field accessors follow. -/
inductive Task where
  | mk
    (id : Int)
    (assignee : Option User)
    (assigneeStatus : String)
    (createdAt : GoTime)
    (createdBy : User)
    (completed : Bool)
    (completedAt : GoTime)
    (customFields : List CustomField)
    (name : String)
    (hearts : List Heart)
    (notes : String)
    (parentTask : Option Task)
    (projects : List Project)
    (dueOn : String)
    (dueAt : String)
    (followers : List User)
    (liked : Bool)
    (numHearts : Int)
    (hearted : Bool)
    (modifiedAt : GoTime)
    (numLikes : Int)
    (tags : List Tag)
    (memberships : List TaskMembership)
    (external : External)

/-- The `CustomFields` field of a `Task`. -/
def Task.customFields : Task → List CustomField
  | .mk _ _ _ _ _ _ _ cfs _ _ _ _ _ _ _ _ _ _ _ _ _ _ _ _ => cfs

/-- The `Name` field of a `Task`. -/
def Task.name : Task → String
  | .mk _ _ _ _ _ _ _ _ nm _ _ _ _ _ _ _ _ _ _ _ _ _ _ _ => nm

/-- Go's conversion `string(n)` for an integer `n`: the UTF-8 encoding
of the code point `n`, or the replacement character `"�"` when `n`
is not a valid code point (negative, a surrogate, or above U+10FFFF). -/
def goStringOfInt (n : Int) : String :=
  if 0 ≤ n ∧ n < 0xd800 ∨ 0xe000 ≤ n ∧ n < 0x110000 then
    String.mk [Char.ofNat n.toNat]
  else "�"

/-- The loop of `(*Task).GetCustomFieldValue` (part_000 lines 160-174),
recursing over the custom-field slice: on a name match, a `switch` on
the field's type returns the enum value's name, the text value, or
`string(NumberValue)`; an unrecognized type falls out of the switch and
the loop continues. -/
def getCFV (name : String) : List CustomField → Except String String
  | [] => Except.error ("Custom field '" ++ name ++ "' not found")
  | cf :: rest =>
    if cf.name = name then
      if cf.type = "enum" then Except.ok cf.enumValue.name
      else if cf.type = "text" then Except.ok cf.textValue
      else if cf.type = "number" then Except.ok (goStringOfInt cf.numberValue)
      else getCFV name rest
    else getCFV name rest

/-- `(*Task).GetCustomFieldValue` (part_000 lines 160-174). -/
def Task.GetCustomFieldValue (t : Task) (name : String) : Except String String :=
  getCFV name t.customFields

/-- Modelled from the spec sentence of claim C10: a custom field is
recognized when its type is `"enum"`, `"text"` or `"number"`. -/
def recognizedCFType (ty : String) : Bool :=
  ty == "enum" || ty == "text" || ty == "number"

/-- Modelled from the spec sentence of claim C10: the value a recognized
custom field determines. -/
def customFieldValue (cf : CustomField) : String :=
  if cf.type = "enum" then cf.enumValue.name
  else if cf.type = "text" then cf.textValue
  else goStringOfInt cf.numberValue

/-- Modelled from the spec sentence of claim C10: look up the first
custom field (in slice order) whose name matches and whose type is
recognized; return its value, or a not-found error when no such field
exists. -/
def specCustomFieldLookup (t : Task) (name : String) : Except String String :=
  match t.customFields.find? (fun cf => cf.name == name && recognizedCFType cf.type) with
  | some cf => Except.ok (customFieldValue cf)
  | none => Except.error ("Custom field '" ++ name ++ "' not found")

/-! ### List helper lemmas -/

theorem getD_concat_length {α : Type} (l : List α) (a d : α) :
    (l ++ [a]).getD l.length d = a := by
  induction l with
  | nil => rfl
  | cons x l ih => simp [ih]

theorem getD_append_lt {α : Type} (l t : List α) (p : Nat) (d : α) (h : p < l.length) :
    (l ++ t).getD p d = l.getD p d := by
  induction l generalizing p with
  | nil => exact absurd h (by simp)
  | cons x l ih =>
    cases p with
    | zero => rfl
    | succ p => simpa using ih p (by simpa using h)

theorem set_concat_length {α : Type} (l : List α) (a b : α) :
    (l ++ [a]).set l.length b = l ++ [b] := by
  induction l with
  | nil => rfl
  | cons x l ih => simp [ih]

theorem take_concat_getD {α : Type} (l : List α) (n : Nat) (d : α) (h : l.length = n + 1) :
    l.take n ++ [l.getD n d] = l := by
  induction l generalizing n with
  | nil => simp at h
  | cons x l ih =>
    cases n with
    | zero =>
      have hl : l = [] := by
        have : l.length = 0 := by simpa using h
        simpa using this
      subst hl; rfl
    | succ n =>
      have h' : l.length = n + 1 := by simpa using h
      simpa using ih n h'

theorem getD_take_lt {α : Type} (l : List α) (m k : Nat) (d : α) (h : k < m) :
    (l.take m).getD k d = l.getD k d := by
  induction l generalizing m k with
  | nil => simp
  | cons x l ih =>
    cases m with
    | zero => exact absurd h (by simp)
    | succ m =>
      cases k with
      | zero => rfl
      | succ k => simpa using ih m k (by omega)

theorem getD_map_default {α β : Type} (g : α → β) (l : List α) (k : Nat) (d : α) :
    (l.map g).getD k (g d) = g (l.getD k d) := by
  induction l generalizing k with
  | nil => rfl
  | cons x l ih =>
    cases k with
    | zero => rfl
    | succ k => simp [ih k]

theorem flatten_take_concat {α : Type} (l : List (List α)) (n : Nat) (h : l.length = n + 1) :
    (l.take n).flatten ++ l.getD n [] = l.flatten := by
  conv_rhs => rw [← take_concat_getD l n [] h]
  simp

/-! ### Store lemmas -/

theorem read_concat (s : Store) (f : Filter) : read (s ++ [f]) s.length = f :=
  getD_concat_length s f {}

theorem storeGrows_refl (s : Store) : StoreGrows s s := ⟨[], by simp⟩

theorem storeGrows_concat (s : Store) (f : Filter) : StoreGrows s (s ++ [f]) := ⟨[f], rfl⟩

theorem storeGrows_trans {s₁ s₂ s₃ : Store} (h₁ : StoreGrows s₁ s₂) (h₂ : StoreGrows s₂ s₃) :
    StoreGrows s₁ s₃ := by
  obtain ⟨t₁, rfl⟩ := h₁
  obtain ⟨t₂, rfl⟩ := h₂
  exact ⟨t₁ ++ t₂, by simp⟩

theorem read_of_grows {s s' : Store} (h : StoreGrows s s') (p : Ptr) (hp : p < s.length) :
    read s' p = read s p := by
  obtain ⟨t, rfl⟩ := h
  exact getD_append_lt s t p {} hp

theorem length_le_of_grows {s s' : Store} (h : StoreGrows s s') : s.length ≤ s'.length := by
  obtain ⟨t, rfl⟩ := h
  simp

theorem writeOptFields_concat (s : Store) (f : Filter) (v : List String) :
    writeOptFields (s ++ [f]) s.length v = s ++ [{ f with optFields := v }] := by
  unfold writeOptFields writeFilter
  rw [read_concat, set_concat_length]

theorem writeOffset_concat (s : Store) (f : Filter) (v : String) :
    writeOffset (s ++ [f]) s.length v = s ++ [{ f with offset := v }] := by
  unfold writeOffset writeFilter
  rw [read_concat, set_concat_length]

/-! ### The filter prologue of `request` -/

theorem requestFilterCore_grows (s : Store) (p : Ptr) (path : String) :
    StoreGrows s (requestFilterCore s p path).1 := by
  unfold requestFilterCore
  split
  · simp only [alloc]
    rw [writeOptFields_concat]
    exact storeGrows_concat s _
  · exact storeGrows_refl s

theorem requestFilterCore_spec (s : Store) (p : Ptr) (path : String) (hp : p < s.length) :
    StoreGrows s (requestFilterCore s p path).1 ∧
    (requestFilterCore s p path).2 < (requestFilterCore s p path).1.length ∧
    read (requestFilterCore s p path).1 (requestFilterCore s p path).2
      = applyDefaults path (read s p) := by
  by_cases h : (read s p).optFields.length = 0
  · simp only [requestFilterCore, applyDefaults, if_pos h, alloc]
    rw [writeOptFields_concat]
    exact ⟨storeGrows_concat s _, by simp, read_concat _ _⟩
  · simp only [requestFilterCore, applyDefaults, if_neg h]
    exact ⟨storeGrows_refl s, hp, by simp⟩

theorem requestFilter_grows (s : Store) (opt : Option Ptr) (path : String) :
    StoreGrows s (requestFilter s opt path).1 := by
  cases opt with
  | none =>
    simp only [requestFilter, alloc]
    exact storeGrows_trans (storeGrows_concat s {}) (requestFilterCore_grows _ _ _)
  | some p => exact requestFilterCore_grows s p path

/-! ### Unfolding lemmas for `request` and the pagination loop -/

theorem requestGo_parts {ε : Type} (doer : OutgoingRequest Unit → HttpResult ε)
    (s : Store) (path : String) (p : Ptr) (hp : p < s.length) :
    requestGo doer s "GET" path none none (some p) =
      { store := (requestFilterCore s p path).1,
        sentReq := expectedReqOf path (read s p),
        next := (classifyResponse (doer (expectedReqOf path (read s p)))).1,
        err := (classifyResponse (doer (expectedReqOf path (read s p)))).2.1,
        page := (classifyResponse (doer (expectedReqOf path (read s p)))).2.2 } := by
  have h := requestFilterCore_spec s p path hp
  simp only [requestGo, requestFilter, expectedReqOf]
  rw [h.2.2]

theorem pagenateLoop_step_fail {ε : Type} (doer : OutgoingRequest Unit → HttpResult ε)
    (path : String) (fuel : Nat) (s : Store) (p : Ptr) (acc : List ε)
    (reqs : List (OutgoingRequest Unit)) (e : ReqError) (hp : p < s.length)
    (hresp : (classifyResponse (doer (expectedReqOf path (read s p)))).2.1 = some e) :
    pagenateLoop doer path (fuel + 1) s (some p) acc reqs =
      ⟨(requestFilterCore s p path).1, acc,
        reqs ++ [expectedReqOf path (read s p)], PagOutcome.failed e⟩ := by
  simp only [pagenateLoop, requestGo_parts doer s path p hp]
  rw [hresp]

theorem pagenateLoop_step_done {ε : Type} (doer : OutgoingRequest Unit → HttpResult ε)
    (path : String) (fuel : Nat) (s : Store) (p : Ptr) (acc : List ε)
    (reqs : List (OutgoingRequest Unit)) (elems : List ε) (hp : p < s.length)
    (hresp : doer (expectedReqOf path (read s p)) =
      HttpResult.ok 200 { decodeErr := none, dataElems := elems, errors := [], nextPage := none }) :
    pagenateLoop doer path (fuel + 1) s (some p) acc reqs =
      ⟨(requestFilterCore s p path).1, acc ++ elems,
        reqs ++ [expectedReqOf path (read s p)], PagOutcome.done⟩ := by
  simp only [pagenateLoop, requestGo_parts doer s path p hp]
  rw [hresp]
  simp [classifyResponse]

theorem pagenateLoop_step_cont {ε : Type} (doer : OutgoingRequest Unit → HttpResult ε)
    (path : String) (fuel : Nat) (s : Store) (p : Ptr) (acc : List ε)
    (reqs : List (OutgoingRequest Unit)) (elems : List ε) (np : NextPage) (hp : p < s.length)
    (hresp : doer (expectedReqOf path (read s p)) =
      HttpResult.ok 200 { decodeErr := none, dataElems := elems, errors := [], nextPage := some np }) :
    ∃ s' p', StoreGrows s s' ∧ p' < s'.length ∧
      read s' p' = { read s p with offset := np.offset } ∧
      pagenateLoop doer path (fuel + 1) s (some p) acc reqs =
        pagenateLoop doer path fuel s' (some p') (acc ++ elems)
          (reqs ++ [expectedReqOf path (read s p)]) := by
  have hg := requestFilterCore_grows s p path
  refine ⟨(requestFilterCore s p path).1 ++ [{ read s p with offset := np.offset }],
    (requestFilterCore s p path).1.length,
    storeGrows_trans hg (storeGrows_concat _ _), by simp, read_concat _ _, ?_⟩
  simp only [pagenateLoop, requestGo_parts doer s path p hp]
  rw [hresp]
  simp only [classifyResponse]
  rw [read_of_grows hg p hp]
  simp only [alloc, writeOffset_concat]
  norm_num

theorem pagenateLoop_grows {ε : Type} (doer : OutgoingRequest Unit → HttpResult ε) (path : String) :
    ∀ (fuel : Nat) (s : Store) (opt : Option Ptr) (acc : List ε)
      (reqs : List (OutgoingRequest Unit)),
      StoreGrows s (pagenateLoop doer path fuel s opt acc reqs).store := by
  intro fuel
  induction fuel with
  | zero => exact fun s _ _ _ => storeGrows_refl s
  | succ fuel ih =>
    intro s opt acc reqs
    have hg : StoreGrows s (requestGo doer s "GET" path none none opt).store :=
      requestFilter_grows s opt path
    simp only [pagenateLoop]
    cases herr : (requestGo doer s "GET" path none none opt).err with
    | some e => simpa [herr] using hg
    | none =>
      cases hnext : (requestGo doer s "GET" path none none opt).next with
      | none => simpa [herr, hnext] using hg
      | some np =>
        cases opt with
        | none => simpa [herr, hnext] using hg
        | some p =>
          simp only [herr, hnext, alloc, writeOffset_concat]
          exact storeGrows_trans hg (storeGrows_trans (storeGrows_concat _ _) (ih _ _ _ _))

theorem pagenateLoop_chain {ε : Type} (doer : OutgoingRequest Unit → HttpResult ε)
    (path : String) (f₀ : Filter) :
    ∀ (pages : List (List ε)) (offs : List String),
      offs.length = pages.length + 1 →
      (∀ k, k < pages.length →
        doer (expectedReq path f₀ (offs.getD k "")) =
          HttpResult.ok 200 { decodeErr := none, dataElems := pages.getD k [], errors := [], nextPage := some { offset := offs.getD (k + 1) "", path := "", uri := "" } }) →
      ∀ (fuel : Nat) (s : Store) (p : Ptr) (acc : List ε)
        (reqs : List (OutgoingRequest Unit)),
        p < s.length → read s p = { f₀ with offset := offs.getD 0 "" } →
        ∃ s' p', p' < s'.length ∧
          read s' p' = { f₀ with offset := offs.getD pages.length "" } ∧
          StoreGrows s s' ∧
          pagenateLoop doer path (fuel + pages.length) s (some p) acc reqs =
            pagenateLoop doer path fuel s' (some p')
              (acc ++ pages.flatten)
              (reqs ++ (offs.take pages.length).map (expectedReq path f₀)) := by
  intro pages
  induction pages with
  | nil =>
    intro offs _ _ fuel s p acc reqs hp hread
    exact ⟨s, p, hp, hread, storeGrows_refl s, by simp⟩
  | cons pg pgs ih =>
    intro offs hlen hdoer fuel s p acc reqs hp hread
    cases offs with
    | nil => simp at hlen
    | cons o₀ offs' =>
      have hlen' : offs'.length = pgs.length + 1 := by simpa using hlen
      have hread₀ : read s p = { f₀ with offset := o₀ } := by simpa using hread
      have hstep := hdoer 0 (by simp)
      have hresp : doer (expectedReqOf path (read s p)) =
          HttpResult.ok 200 { decodeErr := none, dataElems := pg, errors := [], nextPage := some { offset := offs'.getD 0 "", path := "", uri := "" } } := by
        rw [hread₀]
        simpa [expectedReq] using hstep
      obtain ⟨s₁, p₁, hg₁, hp₁, hread₁, heq₁⟩ :=
        pagenateLoop_step_cont doer path (fuel + pgs.length) s p acc reqs pg
          { offset := offs'.getD 0 "", path := "", uri := "" } hp hresp
      have hread₁' : read s₁ p₁ = { f₀ with offset := offs'.getD 0 "" } := by
        rw [hread₁, hread₀]
      have hdoer' : ∀ k, k < pgs.length →
          doer (expectedReq path f₀ (offs'.getD k "")) =
            HttpResult.ok 200 { decodeErr := none, dataElems := pgs.getD k [], errors := [], nextPage := some { offset := offs'.getD (k + 1) "", path := "", uri := "" } } := by
        intro k hk
        simpa using hdoer (k + 1) (by simp only [List.length_cons]; omega)
      obtain ⟨s', p', hp', hread', hg', heq'⟩ :=
        ih offs' hlen' hdoer' fuel s₁ p₁ (acc ++ pg)
          (reqs ++ [expectedReqOf path (read s p)]) hp₁ hread₁'
      have hidx : ((o₀ :: offs').getD (pg :: pgs).length "") = offs'.getD pgs.length "" := by
        simp only [List.length_cons, List.getD_cons_succ]
      refine ⟨s', p', hp', by rw [hidx]; exact hread', storeGrows_trans hg₁ hg', ?_⟩
      have hfuel : fuel + (pg :: pgs).length = (fuel + pgs.length) + 1 := by
        simp only [List.length_cons]; omega
      rw [hfuel, heq₁, heq']
      have hE : expectedReqOf path (read s p) = expectedReq path f₀ o₀ := by
        rw [hread₀]; rfl
      rw [hE]
      simp

/-! ### Query-string lemmas -/

theorem queryGet_qparam_ne (b : Bool) (k v k' : String) (q : List (String × String))
    (h : (k == k') = false) :
    queryGet (qparam b k v ++ q) k' = queryGet q k' := by
  cases b <;> simp [qparam, queryGet, List.find?_cons, h]

theorem queryGet_qparam_true (k v : String) (q : List (String × String)) :
    queryGet (qparam true k v ++ q) k = some v := by
  simp [qparam, queryGet, List.find?_cons]

theorem queryGet_qparam_false (k v : String) (q : List (String × String)) :
    queryGet (qparam false k v ++ q) k = queryGet q k := by
  simp [qparam]

theorem queryGet_qparam_ne_nil (b : Bool) (k v k' : String) (h : (k == k') = false) :
    queryGet (qparam b k v) k' = none := by
  cases b <;> simp [qparam, queryGet, List.find?_cons, h]

theorem queryGet_encodeQuery_optFields (f : Filter) :
    queryGet (encodeQuery f) "opt_fields" =
      if f.optFields = [] then none else some (String.intercalate "," f.optFields) := by
  unfold encodeQuery
  simp only [List.append_assoc]
  rw [queryGet_qparam_ne _ _ _ _ _ (by decide), queryGet_qparam_ne _ _ _ _ _ (by decide),
    queryGet_qparam_ne _ _ _ _ _ (by decide), queryGet_qparam_ne _ _ _ _ _ (by decide),
    queryGet_qparam_ne _ _ _ _ _ (by decide), queryGet_qparam_ne _ _ _ _ _ (by decide),
    queryGet_qparam_ne _ _ _ _ _ (by decide)]
  by_cases h : f.optFields = []
  · rw [if_pos h]
    have hd : (decide (f.optFields ≠ [])) = false := by simp [h]
    rw [hd, queryGet_qparam_false, queryGet_qparam_ne _ _ _ _ _ (by decide),
      queryGet_qparam_ne_nil _ _ _ _ (by decide)]
  · rw [if_neg h]
    have hd : (decide (f.optFields ≠ [])) = true := by simp [h]
    rw [hd, queryGet_qparam_true]

theorem queryGet_encodeQuery_offset (f : Filter) :
    queryGet (encodeQuery f) "offset" =
      if f.offset = "" then none else some f.offset := by
  unfold encodeQuery
  simp only [List.append_assoc]
  rw [queryGet_qparam_ne _ _ _ _ _ (by decide), queryGet_qparam_ne _ _ _ _ _ (by decide),
    queryGet_qparam_ne _ _ _ _ _ (by decide), queryGet_qparam_ne _ _ _ _ _ (by decide),
    queryGet_qparam_ne _ _ _ _ _ (by decide)]
  by_cases h : f.offset = ""
  · rw [if_pos h]
    have hd : (decide (f.offset ≠ "")) = false := by simp [h]
    rw [hd, queryGet_qparam_false, queryGet_qparam_ne _ _ _ _ _ (by decide),
      queryGet_qparam_ne _ _ _ _ _ (by decide), queryGet_qparam_ne _ _ _ _ _ (by decide),
      queryGet_qparam_ne_nil _ _ _ _ (by decide)]
  · rw [if_neg h]
    have hd : (decide (f.offset ≠ "")) = true := by simp [h]
    rw [hd, queryGet_qparam_true]

theorem applyDefaults_offset (path : String) (f : Filter) :
    (applyDefaults path f).offset = f.offset := by
  unfold applyDefaults
  split <;> rfl

theorem offsetParam_expectedReq (path : String) (f : Filter) (o : String) :
    offsetParam (expectedReq path f o) = o := by
  have h1 : (applyDefaults path { f with offset := o }).offset = o :=
    applyDefaults_offset path _
  unfold offsetParam expectedReq expectedReqOf buildRequest
  simp only [queryGet_encodeQuery_offset, h1]
  by_cases h : o = ""
  · simp [h]
  · simp [h]

/-- The recursion of `GetCustomFieldValue` computes the first-match
lookup over recognized custom-field types. -/
theorem getCFV_eq_find (name : String) (l : List CustomField) :
    getCFV name l =
      (match l.find? (fun cf => cf.name == name && recognizedCFType cf.type) with
        | some cf => Except.ok (customFieldValue cf)
        | none => Except.error ("Custom field '" ++ name ++ "' not found")) := by
  induction l with
  | nil => rfl
  | cons cf rest ih =>
    by_cases hn : cf.name = name
    · by_cases h1 : cf.type = "enum"
      · simp [getCFV, List.find?_cons, hn, h1, recognizedCFType, customFieldValue]
      · by_cases h2 : cf.type = "text"
        · simp [getCFV, List.find?_cons, hn, h1, h2, recognizedCFType, customFieldValue]
        · by_cases h3 : cf.type = "number"
          · simp [getCFV, List.find?_cons, hn, h1, h2, h3, recognizedCFType,
              customFieldValue]
          · simp [getCFV, List.find?_cons, hn, h1, h2, h3, recognizedCFType, ih]
    · simp [getCFV, List.find?_cons, hn, ih]

/-! ### Claim theorems -/

/-- C1: for every paginated list operation over a sequence of `N` pages
served at offsets `f₀.offset, c₁, …, c_(N-1)`, where pages `1..N-1` each
return a continuation cursor and page `N` returns none, the operation
returns the concatenation of the pages' elements in server-returned
order, issues exactly the `N` expected requests (one per page), and each
request after the first carries as its query offset the cursor offset
returned by the previous page. -/
theorem listOp_multipage {ε : Type} (doer : OutgoingRequest Unit → HttpResult ε)
    (path : String) (f₀ : Filter) (pages : List (List ε)) (cursors : List String) (fuel : Nat)
    (hlen : cursors.length + 1 = pages.length)
    (hfuel : pages.length ≤ fuel)
    (hdoer : ∀ k, k < pages.length →
      doer (expectedReq path f₀ ((f₀.offset :: cursors).getD k "")) =
        HttpResult.ok 200 { decodeErr := none, dataElems := pages.getD k [], errors := [], nextPage := if k + 1 < pages.length then some { offset := cursors.getD k "", path := "", uri := "" } else none }) :
    listOp doer path (some f₀) fuel = GoResult.ok pages.flatten ∧
    (pagenateGo doer path (some f₀) fuel).reqs =
      (f₀.offset :: cursors).map (expectedReq path f₀) ∧
    ∀ k, k + 1 < pages.length →
      offsetParam ((pagenateGo doer path (some f₀) fuel).reqs.getD (k + 1)
        (expectedReq path f₀ "")) = cursors.getD k "" := by
  set m := cursors.length with hm
  set offs := f₀.offset :: cursors with hoffs
  have hN : pages.length = m + 1 := by omega
  have htake : (pages.take m).length = m := by
    rw [List.length_take]; omega
  have hofflen : offs.length = (pages.take m).length + 1 := by
    rw [htake, hoffs]; simp [hm]
  have hchain_doer : ∀ k, k < (pages.take m).length →
      doer (expectedReq path f₀ (offs.getD k "")) =
        HttpResult.ok 200 { decodeErr := none, dataElems := (pages.take m).getD k [], errors := [], nextPage := some { offset := offs.getD (k + 1) "", path := "", uri := "" } } := by
    intro k hk
    rw [htake] at hk
    have hk' : k < pages.length := by omega
    have hg := hdoer k hk'
    rw [if_pos (by omega)] at hg
    rw [getD_take_lt pages m k [] hk]
    have hoff : offs.getD (k + 1) "" = cursors.getD k "" := by
      rw [hoffs]; simp
    rw [hoff]
    exact hg
  obtain ⟨fuel'', hfe⟩ : ∃ fuel'', fuel = (fuel'' + 1) + m := ⟨fuel - m - 1, by omega⟩
  have hread0 : read [f₀] 0 = { f₀ with offset := offs.getD 0 "" } := rfl
  obtain ⟨s', p', hp', hread', hg', heq⟩ :=
    pagenateLoop_chain doer path f₀ (pages.take m) offs hofflen hchain_doer
      (fuel'' + 1) [f₀] 0 [] [] (by simp) hread0
  rw [htake] at heq hread'
  have hresp : doer (expectedReqOf path (read s' p')) =
      HttpResult.ok 200 { decodeErr := none, dataElems := pages.getD m [], errors := [], nextPage := none } := by
    rw [hread']
    have hg := hdoer m (by omega)
    rw [if_neg (by omega)] at hg
    exact hg
  have hstep := pagenateLoop_step_done doer path fuel'' s' p'
    ([] ++ (pages.take m).flatten) ([] ++ (offs.take m).map (expectedReq path f₀))
    (pages.getD m []) hp' hresp
  have hEfin : expectedReqOf path (read s' p') = expectedReq path f₀ (offs.getD m "") := by
    rw [hread']; rfl
  have hacc : ([] ++ (pages.take m).flatten) ++ pages.getD m [] = pages.flatten := by
    simpa using flatten_take_concat pages m hN
  have hreqs : ([] ++ (offs.take m).map (expectedReq path f₀))
      ++ [expectedReq path f₀ (offs.getD m "")] = offs.map (expectedReq path f₀) := by
    have h1 : offs.take m ++ [offs.getD m ""] = offs := by
      refine take_concat_getD offs m "" ?_
      rw [hoffs]; simp [hm]
    calc ([] ++ (offs.take m).map (expectedReq path f₀))
        ++ [expectedReq path f₀ (offs.getD m "")]
        = (offs.take m ++ [offs.getD m ""]).map (expectedReq path f₀) := by simp
      _ = offs.map (expectedReq path f₀) := by rw [h1]
  have hfull : pagenateGo doer path (some f₀) fuel =
      ⟨(requestFilterCore s' p' path).1, pages.flatten,
        offs.map (expectedReq path f₀), PagOutcome.done⟩ := by
    have h0 : pagenateGo doer path (some f₀) fuel =
        pagenateLoop doer path ((fuel'' + 1) + m) [f₀] (some 0) [] [] := by
      rw [← hfe]; rfl
    rw [h0, heq, hstep, hEfin, hacc, hreqs]
  refine ⟨?_, ?_, ?_⟩
  · unfold listOp
    rw [hfull]
  · rw [hfull]
  · intro k hk
    rw [hfull]
    have hk' : k + 1 < offs.length := by rw [hoffs]; simp; omega
    have hmap : (offs.map (expectedReq path f₀)).getD (k + 1) (expectedReq path f₀ "")
        = expectedReq path f₀ (offs.getD (k + 1) "") :=
      getD_map_default (expectedReq path f₀) offs (k + 1) ""
    rw [hmap, offsetParam_expectedReq]
    rw [hoffs]; simp

/-- Witness for C1 at the concrete two-page scenario of the spec's own
example: pages `[10,20]` and `[30]` with cursor `off1`. -/
theorem listOp_multipage_witness :
    listOp doerC1 "tasks" (some ({} : Filter)) 2 = GoResult.ok [10, 20, 30] := by
  have h := listOp_multipage doerC1 "tasks" {} [[10, 20], [30]] ["off1"] 2
    (by decide) (by decide) (by decide)
  rw [h.1]
  rfl

/-- C2: if, after any number of successfully served pages, the next
request of a pagination sequence fails (transport, decode,
authentication, or application error), the whole list operation fails
immediately: the failing request is the last one issued (exactly one
request per served page plus the failing one) and the caller receives
the error with no partial result — even though the successful pages had
been accumulated internally before the failure. -/
theorem listOp_fail_aborts {ε : Type} (doer : OutgoingRequest Unit → HttpResult ε)
    (path : String) (f₀ : Filter) (pages : List (List ε)) (cursors : List String)
    (e : ReqError) (fuel : Nat)
    (hlen : cursors.length = pages.length)
    (hfuel : pages.length + 1 ≤ fuel)
    (hdoer : ∀ k, k < pages.length →
      doer (expectedReq path f₀ ((f₀.offset :: cursors).getD k "")) =
        HttpResult.ok 200 { decodeErr := none, dataElems := pages.getD k [], errors := [], nextPage := some { offset := cursors.getD k "", path := "", uri := "" } })
    (hfail : (classifyResponse (doer (expectedReq path f₀
        ((f₀.offset :: cursors).getD pages.length "")))).2.1 = some e) :
    listOp doer path (some f₀) fuel = GoResult.err e ∧
    (pagenateGo doer path (some f₀) fuel).reqs =
      (f₀.offset :: cursors).map (expectedReq path f₀) ∧
    (pagenateGo doer path (some f₀) fuel).acc = pages.flatten := by
  set m := pages.length with hm
  set offs := f₀.offset :: cursors with hoffs
  have hofflen : offs.length = pages.length + 1 := by
    rw [hoffs]; simp [hlen]
  have hchain_doer : ∀ k, k < pages.length →
      doer (expectedReq path f₀ (offs.getD k "")) =
        HttpResult.ok 200 { decodeErr := none, dataElems := pages.getD k [], errors := [], nextPage := some { offset := offs.getD (k + 1) "", path := "", uri := "" } } := by
    intro k hk
    have hoff : offs.getD (k + 1) "" = cursors.getD k "" := by
      rw [hoffs]; simp
    rw [hoff]
    exact hdoer k hk
  obtain ⟨fuel'', hfe⟩ : ∃ fuel'', fuel = (fuel'' + 1) + pages.length :=
    ⟨fuel - m - 1, by omega⟩
  have hread0 : read [f₀] 0 = { f₀ with offset := offs.getD 0 "" } := rfl
  obtain ⟨s', p', hp', hread', hg', heq⟩ :=
    pagenateLoop_chain doer path f₀ pages offs hofflen hchain_doer
      (fuel'' + 1) [f₀] 0 [] [] (by simp) hread0
  have hresp : (classifyResponse (doer (expectedReqOf path (read s' p')))).2.1 = some e := by
    rw [hread']
    exact hfail
  have hstep := pagenateLoop_step_fail doer path fuel'' s' p'
    ([] ++ pages.flatten) ([] ++ (offs.take m).map (expectedReq path f₀)) e hp' hresp
  have hEfin : expectedReqOf path (read s' p') = expectedReq path f₀ (offs.getD m "") := by
    rw [hread']; rfl
  have hreqs : ([] ++ (offs.take m).map (expectedReq path f₀))
      ++ [expectedReq path f₀ (offs.getD m "")] = offs.map (expectedReq path f₀) := by
    have h1 : offs.take m ++ [offs.getD m ""] = offs := by
      refine take_concat_getD offs m "" ?_
      rw [hoffs]; simp [hlen]
    calc ([] ++ (offs.take m).map (expectedReq path f₀))
        ++ [expectedReq path f₀ (offs.getD m "")]
        = (offs.take m ++ [offs.getD m ""]).map (expectedReq path f₀) := by simp
      _ = offs.map (expectedReq path f₀) := by rw [h1]
  have hfull : pagenateGo doer path (some f₀) fuel =
      ⟨(requestFilterCore s' p' path).1, [] ++ pages.flatten,
        offs.map (expectedReq path f₀), PagOutcome.failed e⟩ := by
    have h0 : pagenateGo doer path (some f₀) fuel =
        pagenateLoop doer path ((fuel'' + 1) + pages.length) [f₀] (some 0) [] [] := by
      rw [← hfe]; rfl
    rw [h0, heq, hstep, hEfin, hreqs]
  refine ⟨?_, ?_, ?_⟩
  · unfold listOp
    rw [hfull]
  · rw [hfull]
  · rw [hfull]; simp

/-- Witness for C2: one successful page, then an application error;
the operation reports the aggregate error, not the accumulated page. -/
theorem listOp_fail_aborts_witness :
    listOp doerC2 "tasks" (some ({} : Filter)) 2 =
      GoResult.err (ReqError.appErrors ⟨[{ phrase := "ph", message := "msg" }], 500⟩) :=
  (listOp_fail_aborts doerC2 "tasks" {} [[10, 20]] ["off1"]
    (ReqError.appErrors ⟨[{ phrase := "ph", message := "msg" }], 500⟩) 2
    (by decide) (by decide) (by decide) (by decide)).1

/-- C3: a response with HTTP-unauthorized status (401) makes the request
pipeline return the dedicated authentication-failure error
`ErrUnauthorized`, without inspecting the response body and regardless
of envelope content — `body` below is arbitrary, covering in particular
a well-formed envelope with no error records — and with no decoded
output and no cursor. -/
theorem unauthorized_short_circuit {δ ε : Type} (doer : OutgoingRequest δ → HttpResult ε)
    (method path : String) (data : Option δ) (form : Option (List (String × String)))
    (opt : Option Filter) (body : RespBody ε)
    (h : doer ((requestOnce doer method path data form opt).sentReq) =
      HttpResult.ok 401 body) :
    (requestOnce doer method path data form opt).err = some ErrUnauthorized ∧
    (requestOnce doer method path data form opt).next = none ∧
    (requestOnce doer method path data form opt).page = [] := by
  simp only [requestOnce, requestGo] at h ⊢
  rw [h]
  simp [classifyResponse, ErrUnauthorized]

/-- Witness for C3: a constant-401 server answering with a well-formed,
error-free envelope body still yields `ErrUnauthorized`. -/
theorem unauthorized_short_circuit_witness :
    (requestOnce doerC3 "GET" "users/me" none none (some {})).err
      = some ErrUnauthorized :=
  (unauthorized_short_circuit doerC3 "GET" "users/me" none none (some {}) {} rfl).1

/-- C4: for every non-401 response whose decoded envelope contains one
or more error records, the pipeline returns a single aggregate error
value carrying the full list of error records together with the HTTP
status code (and no continuation cursor) — even when the HTTP status
indicates success and decoding succeeded. -/
theorem app_errors_aggregate {δ ε : Type} (doer : OutgoingRequest δ → HttpResult ε)
    (method path : String) (data : Option δ) (form : Option (List (String × String)))
    (opt : Option Filter) (status : Nat) (body : RespBody ε)
    (h : doer ((requestOnce doer method path data form opt).sentReq) =
      HttpResult.ok status body)
    (h401 : status ≠ 401) (herr : body.errors ≠ []) :
    (requestOnce doer method path data form opt).err
      = some (ReqError.appErrors ⟨body.errors, status⟩) ∧
    (requestOnce doer method path data form opt).next = none := by
  have hlen : 0 < body.errors.length := List.length_pos.mpr herr
  simp only [requestOnce, requestGo] at h ⊢
  rw [h]
  simp [classifyResponse, h401, hlen]

/-- Witness for C4: an HTTP 200 response that decodes successfully but
carries one error record yields the aggregate error with code 200. -/
theorem app_errors_aggregate_witness :
    (requestOnce doerC4 "GET" "tasks" none none (some {})).err
      = some (ReqError.appErrors ⟨[{ phrase := "p", message := "m" }], 200⟩) :=
  (app_errors_aggregate doerC4 "GET" "tasks" none none (some {}) 200
    { dataElems := ([] : List Nat), errors := [{ phrase := "p", message := "m" }] }
    rfl (by decide) (by decide)).1

/-- C9: in the response decoder, application errors take precedence over
decode errors: whenever the decoded envelope contains at least one error
record, the aggregate application error is returned and any JSON decode
error from the same response is discarded; a decode error is surfaced
only when the envelope's error list is empty. -/
theorem decode_error_precedence {δ ε : Type} (doer : OutgoingRequest δ → HttpResult ε)
    (method path : String) (data : Option δ) (form : Option (List (String × String)))
    (opt : Option Filter) (status : Nat) (body : RespBody ε)
    (h : doer ((requestOnce doer method path data form opt).sentReq) =
      HttpResult.ok status body)
    (h401 : status ≠ 401) :
    (body.errors ≠ [] →
      (requestOnce doer method path data form opt).err
        = some (ReqError.appErrors ⟨body.errors, status⟩)) ∧
    (body.errors = [] →
      (requestOnce doer method path data form opt).err
        = body.decodeErr.map ReqError.decode) := by
  simp only [requestOnce, requestGo] at h ⊢
  rw [h]
  constructor
  · intro herr
    have hlen : 0 < body.errors.length := List.length_pos.mpr herr
    simp [classifyResponse, h401, hlen]
  · intro herr
    simp [classifyResponse, h401, herr]

/-- Witness for C9: a response with both a decode error and an error
record yields the aggregate application error; the decode error is
discarded. -/
theorem decode_error_precedence_witness :
    (requestOnce doerC9 "GET" "tasks" none none (some {})).err
      = some (ReqError.appErrors ⟨[{ phrase := "p", message := "m" }], 200⟩) :=
  (decode_error_precedence doerC9 "GET" "tasks" none none (some {}) 200
    { decodeErr := some "unexpected EOF", dataElems := ([] : List Nat),
      errors := [{ phrase := "p", message := "m" }] }
    rfl (by decide)).1 (by decide)

/-- C5: no operation mutates the caller-supplied Filter object: both the
default field-selection lookup in `request` and the pagination driver's
offset advancement operate on freshly allocated copies, so after a
single-request call and after any run of the pagination driver —
however many pages it advanced through — the caller's original Filter
cell is unchanged. -/
theorem filter_not_mutated {δ ε : Type} :
    (∀ (doer : OutgoingRequest δ → HttpResult ε) (method path : String)
      (data : Option δ) (form : Option (List (String × String))) (f : Filter),
      read (requestOnce doer method path data form (some f)).store 0 = f) ∧
    (∀ (doer : OutgoingRequest Unit → HttpResult ε) (path : String) (f : Filter) (fuel : Nat),
      read (pagenateGo doer path (some f) fuel).store 0 = f) := by
  constructor
  · intro doer method path data form f
    have hg : StoreGrows [f] (requestOnce doer method path data form (some f)).store := by
      simp only [requestOnce, requestGo, initState]
      exact requestFilter_grows [f] (some 0) path
    rw [read_of_grows hg 0 (by simp)]
    rfl
  · intro doer path f fuel
    have hg : StoreGrows [f] (pagenateGo doer path (some f) fuel).store := by
      simp only [pagenateGo, initState]
      exact pagenateLoop_grows doer path fuel [f] (some 0) [] []
    rw [read_of_grows hg 0 (by simp)]
    rfl

/-- C6 counterexample: the claim says any path whose resource-path
prefix is a known resource gets that resource's default field list, but
the `defaultOptFields` map is keyed by the whole path.  `users/me` — the
path `GetAuthenticatedUser` uses — starts with the known resource
`users` (default list `name,email,photo`), yet the request built for it
from an empty-`OptFields` Filter carries no `opt_fields` parameter at
all. -/
theorem defaults_prefix_counterexample :
    defaultOptFields "users" = ["name", "email", "photo"] ∧
    "users/me" = "users" ++ "/me" ∧
    queryGet (requestOnce doerOk200 "GET" "users/me" none none (some {})).sentReq.query
      "opt_fields" = none := by
  refine ⟨by decide, by decide, by decide⟩

/-- C6 (amended): the default list is applied only when the path is
*exactly* one of the five known resource keys (`tags`, `users`,
`projects`, `workspaces`, `tasks`) — a path that merely begins with a
known resource gets no defaults; when the caller's `OptFields` is
non-empty it is sent unmodified (comma-joined). -/
theorem optFields_query_amended {δ ε : Type} :
    (∀ (doer : OutgoingRequest δ → HttpResult ε) (method path : String)
      (data : Option δ) (form : Option (List (String × String))) (f : Filter),
      queryGet (requestOnce doer method path data form (some f)).sentReq.query "opt_fields" =
        if f.optFields ≠ [] then some (String.intercalate "," f.optFields)
        else if defaultOptFields path ≠ [] then
          some (String.intercalate "," (defaultOptFields path))
        else none) ∧
    (∀ path : String, defaultOptFields path ≠ [] ↔
      path ∈ ["tags", "users", "projects", "workspaces", "tasks"]) := by
  constructor
  · intro doer method path data form f
    have hsq : (requestOnce doer method path data form (some f)).sentReq.query
        = encodeQuery (applyDefaults path f) := by
      have h := requestFilterCore_spec [f] 0 path (by simp)
      simp only [requestOnce, requestGo, initState, requestFilter]
      rw [h.2.2]
      rfl
    have hof : (applyDefaults path f).optFields
        = if f.optFields = [] then defaultOptFields path else f.optFields := by
      unfold applyDefaults
      by_cases h : f.optFields = [] <;> simp [h]
    rw [hsq, queryGet_encodeQuery_optFields, hof]
    by_cases h : f.optFields = [] <;> by_cases hd : defaultOptFields path = [] <;>
      simp [h, hd]
  · intro path
    unfold defaultOptFields
    split_ifs <;> simp_all

/-- C7: when the request builder is supplied with both a structured
payload and form data, the body sent is the JSON serialization of the
envelope `{"data": <payload>}` with content type `application/json` and
the form data is silently ignored; form data is encoded as the body
(content type `application/x-www-form-urlencoded`) only when the
structured payload is absent; and no body and no content type are set
when both are absent. -/
theorem body_content_type {δ ε : Type} :
    (∀ (doer : OutgoingRequest δ → HttpResult ε) (method path : String) (d : δ)
      (form : List (String × String)) (opt : Option Filter),
      (requestOnce doer method path (some d) (some form) opt).sentReq.body
          = some (ReqBody.jsonEnvelope ⟨d⟩) ∧
        (requestOnce doer method path (some d) (some form) opt).sentReq.contentType
          = some "application/json") ∧
    (∀ (doer : OutgoingRequest δ → HttpResult ε) (method path : String)
      (form : List (String × String)) (opt : Option Filter),
      (requestOnce doer method path none (some form) opt).sentReq.body
          = some (ReqBody.formEncoded form) ∧
        (requestOnce doer method path none (some form) opt).sentReq.contentType
          = some "application/x-www-form-urlencoded") ∧
    (∀ (doer : OutgoingRequest δ → HttpResult ε) (method path : String)
      (opt : Option Filter),
      (requestOnce doer method path none none opt).sentReq.body = none ∧
        (requestOnce doer method path none none opt).sentReq.contentType = none) :=
  ⟨fun _ _ _ _ _ _ => ⟨rfl, rfl⟩,
   fun _ _ _ _ _ => ⟨rfl, rfl⟩,
   fun _ _ _ _ => ⟨rfl, rfl⟩⟩

/-- C8 (code bug): a nil Filter is accepted by the single-request
pipeline (`request` replaces it by a zero `Filter{}`), but when a
paginated operation's first page returns a continuation cursor, the
cursor-advance step `newOpt := *opt` dereferences the caller's nil
pointer and the operation panics instead of behaving like a zero-value
Filter, which — as the second conjunct shows on the same server —
would have returned all pages. -/
theorem nil_filter_multipage_panics :
    GetWebhooks doerC8 none 2 = GoResult.panicked ∧
    GetWebhooks doerC8 (some {}) 2 = GoResult.ok [1, 2, 3] := by
  decide

/-- C10: `GetCustomFieldValue` returns exactly what the first custom
field (in slice order) whose name matches and whose type is one of
`enum`, `text`, `number` determines — a name match with an unrecognized
type is skipped as if absent — and returns the not-found error when no
recognized match exists; consequently it succeeds if and only if such a
field exists.  (The embedding is a pure function of the task, so the
task itself is unchanged by construction.) -/
theorem getCustomFieldValue_correct (t : Task) (name : String) :
    t.GetCustomFieldValue name = specCustomFieldLookup t name ∧
    ((∃ v, t.GetCustomFieldValue name = Except.ok v) ↔
      ∃ cf ∈ t.customFields, cf.name = name ∧ recognizedCFType cf.type = true) := by
  refine ⟨getCFV_eq_find name t.customFields, ?_⟩
  rw [Task.GetCustomFieldValue, getCFV_eq_find]
  cases hf : t.customFields.find? (fun cf => cf.name == name && recognizedCFType cf.type) with
  | some cf =>
    simp only [hf]
    constructor
    · intro _
      have hmem := List.mem_of_find?_eq_some hf
      have hp := List.find?_some hf
      simp only [Bool.and_eq_true, beq_iff_eq] at hp
      exact ⟨cf, hmem, hp.1, hp.2⟩
    · intro _
      exact ⟨_, rfl⟩
  | none =>
    simp only [hf]
    constructor
    · rintro ⟨v, hv⟩
      cases hv
    · rintro ⟨cf, hmem, hn, ht⟩
      have hnone := List.find?_eq_none.mp hf cf hmem
      simp [hn, ht] at hnone

end Asana
